import Mathlib

/-!
Verification of the neural field-embedding engine of the zenagent repository
(src/server/python/tensorflow_field_model.py and
src/server/python/field_matcher_ml.py).

The Python code is shallowly embedded: numpy row vectors become `List ℝ`
(or `List ℚ` for the purely rational feature encoder), matrices become
`List (List ℝ)`, the mutable `NeuralFieldEmbedding` object becomes a
structure passed and returned explicitly, and pickle artifacts become a
structure of `Option` fields (a missing dict key is `none`).  Python string
operations (`str.lower`, regex splits and findall) are modelled at ASCII
level, which covers the field-name domain of the program.
-/

/-- ASCII model of Python str.lower on a single character. -/
def pyLowerChar (c : Char) : Char :=
  if 'A' ≤ c ∧ c ≤ 'Z' then Char.ofNat (c.toNat + 32) else c

/-- ASCII model of Python str.lower. -/
def pyLower (s : String) : String := String.mk (s.data.map pyLowerChar)

/-- Source: tensorflow_field_model.py, _build_char_vocab.  The Python dict
maps each character of this string to its position; we keep the ordered
list of characters, index = position. -/
def build_char_vocab : List Char :=
  "abcdefghijklmnopqrstuvwxyz0123456789_-. ".toList

/-- Character-frequency histogram of _encode_field_name: entry i counts the
characters of the (lowercased, truncated) name that are in the vocabulary
at index i. -/
def charHist (vocab : List Char) (cs : List Char) : List ℚ :=
  (List.range vocab.length).map
    (fun i => ((cs.filter (fun c => vocab.contains c && vocab.indexOf c == i)).length : ℚ))

/-- Bigram histogram of _encode_field_name: adjacent pairs with both
characters in the vocabulary, bucketed at (idx c1 + idx c2) mod |vocab|. -/
def bigramHist (vocab : List Char) (cs : List Char) : List ℚ :=
  (List.range vocab.length).map
    (fun i => (((cs.zip cs.tail).filter (fun p =>
        vocab.contains p.1 && vocab.contains p.2 &&
          ((vocab.indexOf p.1 + vocab.indexOf p.2) % vocab.length == i))).length : ℚ))

/-- The `if sum > 0: divide by sum` normalization of _encode_field_name. -/
def normalizeHist (h : List ℚ) : List ℚ :=
  if h.sum > 0 then h.map (· / h.sum) else h

/-- The `pad with zeros or truncate to input_dim` tail of _encode_field_name. -/
def padTruncate (input_dim : ℕ) (features : List ℚ) : List ℚ :=
  if features.length < input_dim then
    features ++ List.replicate (input_dim - features.length) 0
  else
    features.take input_dim

/-- Source: tensorflow_field_model.py, _encode_field_name.  Lowercase,
truncate to 50 characters, build the two normalized histograms, concatenate,
then pad with zeros or truncate to input_dim. -/
def encode_field_name (vocab : List Char) (input_dim : ℕ) (field_name : String) : List ℚ :=
  let name := (pyLower field_name).data.take 50
  let char_features := normalizeHist (charHist vocab name)
  let bigram_features := normalizeHist (bigramHist vocab name)
  padTruncate input_dim (char_features ++ bigram_features)

/-! ## Network state and numeric core (tensorflow_field_model.py)

The numeric core is over ℝ (floats idealized as reals), hence
noncomputable; the rational feature encoder and the lexical matcher remain
executable. -/

noncomputable section

/-- State of the NeuralFieldEmbedding object: configuration, the three
weight matrices and bias vectors (numpy arrays become lists of rows), the
character vocabulary, and the informational trained flag. -/
structure NeuralFieldEmbedding where
  input_dim : ℕ
  embedding_dim : ℕ
  W1 : List (List ℝ)
  b1 : List ℝ
  W2 : List (List ℝ)
  b2 : List ℝ
  W3 : List (List ℝ)
  b3 : List ℝ
  char_vocab : List Char
  trained : Bool

/-- Dot product of two row vectors. -/
def dotL (a b : List ℝ) : ℝ := (List.zipWith (fun x y => x * y) a b).sum

/-- Elementwise sum of two row vectors. -/
def vecAdd (a b : List ℝ) : List ℝ := List.zipWith (fun x y => x + y) a b

/-- Elementwise difference of two row vectors. -/
def vecSub (a b : List ℝ) : List ℝ := List.zipWith (fun x y => x - y) a b

/-- Row vector times matrix (numpy x @ W with x a single row): entry j is
the dot product of x with column j of W, the column count read off the
first row. -/
def matVecMul (x : List ℝ) (W : List (List ℝ)) : List ℝ :=
  (List.range (W.headD []).length).map
    (fun j => (List.zipWith (fun xi row => xi * row.getD j 0) x W).sum)

/-- np.maximum(0, x): the ReLU activation. -/
def reluVec (v : List ℝ) : List ℝ := v.map (fun x => max 0 x)

/-- (x > 0).astype(float): the ReLU derivative. -/
def reluDeriv (x : ℝ) : ℝ := if 0 < x then 1 else 0

/-- np.sum(v ** 2). -/
def sumSq (v : List ℝ) : ℝ := (v.map (fun x => x ^ 2)).sum

/-- np.linalg.norm(v) = np.sqrt(np.sum(v ** 2)): the L2 norm of a row. -/
def norm2 (v : List ℝ) : ℝ := Real.sqrt (sumSq v)

/-- The 1e-8 epsilon used as a division floor in forward and
calculate_similarity. -/
def normEps : ℝ := 1 / 10 ^ 8

/-- The cache dict built by forward: X, Z1, A1, Z2, A2, Z3, A3. -/
structure ForwardCache where
  X : List ℝ
  Z1 : List ℝ
  A1 : List ℝ
  Z2 : List ℝ
  A2 : List ℝ
  Z3 : List ℝ
  A3 : List ℝ

namespace NeuralFieldEmbedding

/-- Source: tensorflow_field_model.py, forward.  Three affine layers with
two ReLUs, then L2 normalization of Z3 with the norm floored at 1e-8. -/
def forward (net : NeuralFieldEmbedding) (X : List ℝ) : List ℝ × ForwardCache :=
  let Z1 := vecAdd (matVecMul X net.W1) net.b1
  let A1 := reluVec Z1
  let Z2 := vecAdd (matVecMul A1 net.W2) net.b2
  let A2 := reluVec Z2
  let Z3 := vecAdd (matVecMul A2 net.W3) net.b3
  let n := max (norm2 Z3) normEps
  let A3 := Z3.map (fun z => z / n)
  (A3, ⟨X, Z1, A1, Z2, A2, Z3, A3⟩)

/-- The encoded field name as the real-valued input row of the network. -/
def encodeR (net : NeuralFieldEmbedding) (s : String) : List ℝ :=
  (encode_field_name net.char_vocab net.input_dim s).map Rat.cast

/-- Source: tensorflow_field_model.py, get_embedding: encode then forward,
returning the flattened embedding row. -/
def get_embedding (net : NeuralFieldEmbedding) (field_name : String) : List ℝ :=
  (net.forward (net.encodeR field_name)).1

/-- The pre-normalization output Z3 of the forward pass on a field name
(read off the forward cache). -/
def z3_of (net : NeuralFieldEmbedding) (field_name : String) : List ℝ :=
  ((net.forward (net.encodeR field_name)).2).Z3

/-- Source: tensorflow_field_model.py, calculate_similarity: cosine
similarity of the two embeddings with a 1e-8 floor summand in the
denominator, rescaled to the 0..1 range via (cos + 1) / 2. -/
def calculate_similarity (net : NeuralFieldEmbedding) (field1 field2 : String) : ℝ :=
  let emb1 := net.get_embedding field1
  let emb2 := net.get_embedding field2
  let similarity := dotL emb1 emb2 / (norm2 emb1 * norm2 emb2 + normEps)
  (similarity + 1) / 2

end NeuralFieldEmbedding

/-- Outer product cache.A2.T @ dZ3 of two rows (m = 1). -/
def outerMul (a g : List ℝ) : List (List ℝ) :=
  a.map (fun ai => g.map (fun gj => ai * gj))

/-- In-place SGD update W -= lr * dW on a matrix. -/
def matSubScaled (W dW : List (List ℝ)) (lr : ℝ) : List (List ℝ) :=
  List.zipWith (fun wr dr => List.zipWith (fun w d => w - lr * d) wr dr) W dW

/-- In-place SGD update b -= lr * db on a row. -/
def vecSubScaled (b db : List ℝ) (lr : ℝ) : List ℝ :=
  List.zipWith (fun w d => w - lr * d) b db

namespace NeuralFieldEmbedding

/-- Source: tensorflow_field_model.py, backward.  Reverse-mode gradients
through the three layers followed by the SGD update of all six parameter
arrays.  The batch size m = cache.X.shape[0] is always 1 here because every
input is a single encoded row, so the 1/m factors of the source are
dropped. -/
def backward (net : NeuralFieldEmbedding) (cache : ForwardCache)
    (grad_output : List ℝ) (learning_rate : ℝ) : NeuralFieldEmbedding :=
  let dZ3 := grad_output
  let dW3 := outerMul cache.A2 dZ3
  let db3 := dZ3
  let dA2 := net.W3.map (fun row => dotL dZ3 row)
  let dZ2 := List.zipWith (fun x y => x * y) dA2 (cache.Z2.map reluDeriv)
  let dW2 := outerMul cache.A1 dZ2
  let db2 := dZ2
  let dA1 := net.W2.map (fun row => dotL dZ2 row)
  let dZ1 := List.zipWith (fun x y => x * y) dA1 (cache.Z1.map reluDeriv)
  let dW1 := outerMul cache.X dZ1
  let db1 := dZ1
  { net with
    W3 := matSubScaled net.W3 dW3 learning_rate
    b3 := vecSubScaled net.b3 db3 learning_rate
    W2 := matSubScaled net.W2 dW2 learning_rate
    b2 := vecSubScaled net.b2 db2 learning_rate
    W1 := matSubScaled net.W1 dW1 learning_rate
    b1 := vecSubScaled net.b1 db1 learning_rate }

end NeuralFieldEmbedding

/-- One similar-pair step of train_on_pairs: encode and forward both
fields, loss = squared embedding distance, gradients 2*diff and -2*diff,
then the two backward calls applied sequentially to the same weights. -/
def simStep (learning_rate : ℝ) (st : NeuralFieldEmbedding × ℝ)
    (p : String × String) : NeuralFieldEmbedding × ℝ :=
  let net := st.1
  let ec1 := net.forward (net.encodeR p.1)
  let ec2 := net.forward (net.encodeR p.2)
  let diff := vecSub ec1.1 ec2.1
  let loss := sumSq diff
  let grad1 := diff.map (fun x => 2 * x)
  let grad2 := diff.map (fun x => -2 * x)
  ((net.backward ec1.2 grad1 learning_rate).backward ec2.2 grad2 learning_rate,
    st.2 + loss)

/-- One dissimilar-pair step of train_on_pairs (margin = 1.0): if the
embedding distance is below the margin, contrastive loss and two
sequential backward calls; otherwise the pair is skipped. -/
def dissimStep (learning_rate : ℝ) (st : NeuralFieldEmbedding × ℝ)
    (p : String × String) : NeuralFieldEmbedding × ℝ :=
  let net := st.1
  let ec1 := net.forward (net.encodeR p.1)
  let ec2 := net.forward (net.encodeR p.2)
  let diff := vecSub ec1.1 ec2.1
  let distance := norm2 diff
  if distance < 1 then
    let loss := (1 - distance) ^ 2
    let grad_factor := -2 * (1 - distance) / (distance + normEps)
    let grad1 := diff.map (fun x => grad_factor * x)
    let grad2 := diff.map (fun x => -grad_factor * x)
    ((net.backward ec1.2 grad1 learning_rate).backward ec2.2 grad2 learning_rate,
      st.2 + loss)
  else
    (net, st.2)

namespace NeuralFieldEmbedding

/-- Source: tensorflow_field_model.py, train_on_pairs.  Per epoch the loss
accumulator restarts at 0, all similar pairs are processed first, then all
dissimilar pairs, each pair by two sequential backward calls; at the end
the trained flag is set.  The body of each loop iteration is written out
inline, mirroring the Python loops. -/
def train_on_pairs (net : NeuralFieldEmbedding)
    (similar_pairs dissimilar_pairs : List (String × String))
    (epochs : ℕ) (learning_rate : ℝ) : NeuralFieldEmbedding :=
  let final := (List.range epochs).foldl (fun n _ =>
    (List.foldl (fun st p =>
        let net := st.1
        let ec1 := net.forward (net.encodeR p.1)
        let ec2 := net.forward (net.encodeR p.2)
        let diff := vecSub ec1.1 ec2.1
        let distance := norm2 diff
        if distance < 1 then
          let loss := (1 - distance) ^ 2
          let grad_factor := -2 * (1 - distance) / (distance + normEps)
          let grad1 := diff.map (fun x => grad_factor * x)
          let grad2 := diff.map (fun x => -grad_factor * x)
          ((net.backward ec1.2 grad1 learning_rate).backward ec2.2 grad2 learning_rate,
            st.2 + loss)
        else
          (net, st.2))
      (List.foldl (fun st p =>
          let net := st.1
          let ec1 := net.forward (net.encodeR p.1)
          let ec2 := net.forward (net.encodeR p.2)
          let diff := vecSub ec1.1 ec2.1
          let loss := sumSq diff
          let grad1 := diff.map (fun x => 2 * x)
          let grad2 := diff.map (fun x => -2 * x)
          ((net.backward ec1.2 grad1 learning_rate).backward ec2.2 grad2 learning_rate,
            st.2 + loss))
        (n, (0 : ℝ)) similar_pairs) dissimilar_pairs).1) net
  { final with trained := true }

end NeuralFieldEmbedding

end

/-! ## Lexical matcher (field_matcher_ml.py)

The regex operations of the source are modelled at ASCII level:
re.split on [_\-\s]+, re.findall of [a-z]+, the camelCase findall
[A-Z]?[a-z]+|[A-Z]+(?=[A-Z][a-z]|\b) with Python backtracking semantics,
and re.sub of ([a-z])([A-Z]) by \1 \2. -/

/-- ASCII a-z test ([a-z] in the source regexes). -/
def isLowerAZ (c : Char) : Bool := 'a' ≤ c && c ≤ 'z'

/-- ASCII A-Z test ([A-Z] in the source regexes). -/
def isUpperAZ (c : Char) : Bool := 'A' ≤ c && c ≤ 'Z'

/-- ASCII whitespace (regex \s). -/
def isPySpace (c : Char) : Bool :=
  c == ' ' || c == '\t' || c == '\n' || c == '\r' || c.toNat == 11 || c.toNat == 12

/-- ASCII word character (regex \w, for the \b boundary). -/
def isWordChar (c : Char) : Bool :=
  isLowerAZ c || isUpperAZ c || ('0' ≤ c && c ≤ '9') || c == '_'

/-- Separator class of re.split(r'[_\-\s]+', ...). -/
def isSepChar (c : Char) : Bool := c == '_' || c == '-' || isPySpace c

/-- re.split(r'[_\-\s]+', s): pieces between maximal separator runs,
keeping empty pieces at the ends.  Every recursive call consumes at least
one character, so fuel = length of the list suffices. -/
def splitSepsGo : ℕ → List Char → List Char → List (List Char)
  | _, acc, [] => [acc.reverse]
  | 0, acc, _ => [acc.reverse]
  | fuel + 1, acc, c :: rest =>
    if isSepChar c then
      acc.reverse :: splitSepsGo fuel [] (rest.dropWhile isSepChar)
    else
      splitSepsGo fuel (c :: acc) rest

/-- re.split(r'[_\-\s]+', s). -/
def splitSeps (cs : List Char) : List (List Char) := splitSepsGo cs.length [] cs

/-- re.findall(r'[a-z]+', s): the maximal lowercase runs (fuel as above). -/
def lowerRunsGo : ℕ → List Char → List (List Char)
  | _, [] => []
  | 0, _ => []
  | fuel + 1, c :: rest =>
    if isLowerAZ c then
      (c :: rest.takeWhile isLowerAZ) :: lowerRunsGo fuel (rest.dropWhile isLowerAZ)
    else
      lowerRunsGo fuel rest

/-- re.findall(r'[a-z]+', s). -/
def lowerRuns (cs : List Char) : List (List Char) := lowerRunsGo cs.length cs

/-- Lookahead (?=[A-Z][a-z]|\b) of the camelCase regex, checked after j
consumed characters; the preceding character is always a word character
here, so \b holds exactly at the end of the string or before a non-word
character. -/
def lookaheadOk (cs : List Char) (j : ℕ) : Bool :=
  match cs.drop j with
  | [] => true
  | a :: ar =>
    (isUpperAZ a && (match ar with | b :: _ => isLowerAZ b | [] => false)) ||
      !(isWordChar a)

/-- Greedy-with-backtracking match length of [A-Z]+(?=[A-Z][a-z]|\b): the
largest j between 1 and the uppercase-run length whose lookahead holds. -/
def camelAltTwo (cs : List Char) : ℕ → Option ℕ
  | 0 => none
  | j + 1 => if lookaheadOk cs (j + 1) then some (j + 1) else camelAltTwo cs j

/-- re.findall(r'[A-Z]?[a-z]+|[A-Z]+(?=[A-Z][a-z]|\b)', s): Python scans
left to right; at each position the first alternative is tried first, a
failed position advances by one character, a match resumes after the
matched text.  Each recursive call consumes at least one character, so
fuel = length of the list suffices. -/
def camelTokensGo : ℕ → List Char → List (List Char)
  | 0, _ => []
  | _, [] => []
  | fuel + 1, c :: rest =>
    if isUpperAZ c && (match rest with | r :: _ => isLowerAZ r | [] => false) then
      (c :: rest.takeWhile isLowerAZ) :: camelTokensGo fuel (rest.dropWhile isLowerAZ)
    else if isLowerAZ c then
      (c :: rest.takeWhile isLowerAZ) :: camelTokensGo fuel (rest.dropWhile isLowerAZ)
    else if isUpperAZ c then
      match camelAltTwo (c :: rest) (1 + (rest.takeWhile isUpperAZ).length) with
      | some j => ((c :: rest).take j) :: camelTokensGo fuel ((c :: rest).drop j)
      | none => camelTokensGo fuel rest
    else
      camelTokensGo fuel rest

/-- The camelCase token findall of the source. -/
def camelTokens (cs : List Char) : List (List Char) := camelTokensGo cs.length cs

/-- re.sub('([a-z])([A-Z])', r'\1 \2', s): insert a space at each
lower-upper adjacency; the match consumes both characters. -/
def camelSub : List Char → List Char
  | a :: b :: rest =>
    if isLowerAZ a && isUpperAZ b then a :: ' ' :: b :: camelSub rest
    else a :: camelSub (b :: rest)
  | l => l
  termination_by l => l.length
  decreasing_by
  · simp only [List.length_cons]
    omega
  · simp only [List.length_cons]
    omega

/-- Source: field_matcher_ml.py, preprocess_field_name: camelCase split,
then replace '_' and '-' by spaces, then lowercase. -/
def preprocess_field_name (field_name : String) : String :=
  String.mk (((camelSub field_name.data).map
    (fun c => if c == '_' || c == '-' then ' ' else c)).map pyLowerChar)

/-- Inner loop of levenshtein_distance: one DP row extension.  pj walks
previous_row, cur is the last appended entry of current_row. -/
def levInner (c1 : Char) : List Char → List ℕ → ℕ → List ℕ
  | [], _, _ => []
  | _ :: _, [], _ => []
  | c2 :: bs, pj :: rest, cur =>
    let v := min (rest.headD 0 + 1)
      (min (cur + 1) (pj + (if c1 == c2 then 0 else 1)))
    v :: levInner c1 bs rest v

/-- Outer loop of levenshtein_distance over the first string, carrying
previous_row and the row index. -/
def levLoop : List Char → List Char → List ℕ → ℕ → List ℕ
  | [], _, prev, _ => prev
  | c1 :: as, b, prev, i => levLoop as b ((i + 1) :: levInner c1 b prev (i + 1)) (i + 1)

/-- levenshtein_distance after the argument swap: early return on an empty
second string, otherwise the DP with previous_row initialized to
range(len(s2)+1) and answer previous_row[-1]. -/
def levCore (a b : List Char) : ℕ :=
  if b.length = 0 then a.length
  else (levLoop a b (List.range (b.length + 1)) 0).getLastD 0

/-- Source: field_matcher_ml.py, levenshtein_distance (the swap puts the
longer string first). -/
def levenshtein_distance (s1 s2 : List Char) : ℕ :=
  if s1.length < s2.length then levCore s2 s1 else levCore s1 s2

/-- Python str.strip(): drop leading and trailing whitespace. -/
def pyStrip (cs : List Char) : List Char :=
  ((cs.dropWhile isPySpace).reverse.dropWhile isPySpace).reverse

/-- Source: field_matcher_ml.py, is_acronym_match: the short field (lowered,
stripped) equals the acronym of the long field's tokens (camelCase tokens
when any exist, else separator-split tokens; single-character tokens
dropped). -/
def is_acronym_match (short_field long_field : String) : Bool :=
  let short := pyStrip (pyLower short_field).data
  let tokens0 := splitSeps long_field.data
  let camel := camelTokens long_field.data
  let tokens1 := if camel.isEmpty then tokens0 else camel
  let tokens := tokens1.filter (fun t => t.length > 1)
  if tokens.isEmpty || short.length < 2 then false
  else short == tokens.map (fun t => pyLowerChar (t.headD ' '))

/-- Lowercase and strip '_' and '-': the lookup-table key normalization of
calculate_similarity. -/
def normKey (s : String) : String :=
  String.mk ((pyLower s).data.filter (fun c => !(c == '_' || c == '-')))

/-- field.split('.')[-1] if '.' in field else field: strip table prefixes. -/
def lastDotPart (s : String) : String :=
  if s.data.contains '.' then String.mk ((s.data.splitOn '.').getLastD []) else s

/-- The token sets of Method 4 of calculate_similarity: separator split of
the lowered string plus the lowercase runs, as a set (deduplicated),
keeping only tokens longer than one character. -/
def tokensForOverlap (s : String) : List String :=
  let base := (splitSeps (pyLower s).data).map (fun t => String.mk t)
  let camel := (lowerRuns (pyLower s).data).map (fun t => String.mk t)
  ((base ++ camel).dedup).filter (fun t => t.length > 1)

/-- The demographic_variations lookup table assigned in
FieldMatcherML.__init__. -/
def demographic_variations_table : List (String × List String) :=
  [("ssn", ["social_security_number", "socialSecurityNumber", "taxId", "tax_id"]),
   ("dob", ["dateOfBirth", "date_of_birth", "birthDate", "birth_date"]),
   ("firstName", ["first_name", "fname", "givenName", "given_name"]),
   ("lastName", ["last_name", "lname", "surname", "familyName", "family_name"]),
   ("email", ["emailAddress", "email_address", "eMail", "e_mail"]),
   ("phone", ["phoneNumber", "phone_number", "telephone", "mobileNumber", "mobile_number"]),
   ("address", ["streetAddress", "street_address", "addressLine1", "address_line_1"]),
   ("zipCode", ["zip_code", "postalCode", "postal_code", "postcode"]),
   ("city", ["cityName", "city_name", "municipality"]),
   ("state", ["stateCode", "state_code", "province", "region"]),
   ("accountNumber", ["account_number", "accountNo", "account_no", "acctNum"]),
   ("cardNumber", ["card_number", "creditCardNumber", "credit_card_number", "panNumber", "pan_number"])]

/-- State of a FieldMatcherML object: the neural model constructed in
__init__, the model_loaded capability flag (set from the filesystem), and
the demographic lookup table. -/
structure FieldMatcherML where
  neural_model : NeuralFieldEmbedding
  model_loaded : Bool
  demographic_variations : List (String × List String)

namespace FieldMatcherML

/-- Source: field_matcher_ml.py, FieldMatcherML.calculate_similarity.
Fast path on case-insensitive equality; then the demographic lookup table
(0.95), the acronym check (0.90), and finally the clamped blend of
Levenshtein similarity (0.6) and token overlap (0.4). -/
def calculate_similarity (matcher : FieldMatcherML)
    (source_field target_field : String) : ℚ :=
  if pyLower source_field = pyLower target_field then 1
  else
    let source_clean := lastDotPart source_field
    let target_clean := lastDotPart target_field
    let source_lower := normKey source_clean
    let target_lower := normKey target_clean
    match matcher.demographic_variations.find? (fun bv =>
        let base_normalized := normKey bv.1
        let variations_normalized := bv.2.map normKey
        (source_lower == base_normalized
            || variations_normalized.contains source_lower) &&
          (target_lower == base_normalized
            || variations_normalized.contains target_lower)) with
    | some _ => 0.95
    | none =>
      let shorter :=
        if source_field.length < target_field.length then source_field else target_field
      let longer :=
        if source_field.length < target_field.length then target_field else source_field
      if is_acronym_match shorter longer then 0.90
      else
        let source := preprocess_field_name source_field
        let target := preprocess_field_name target_field
        let max_len := max source.length target.length
        let lev_similarity : ℚ :=
          if max_len > 0 then
            1 - (levenshtein_distance source.data target.data : ℚ) / (max_len : ℚ)
          else 0
        let source_tokens := tokensForOverlap source_field
        let target_tokens := tokensForOverlap target_field
        let token_overlap : ℚ :=
          if !source_tokens.isEmpty && !target_tokens.isEmpty then
            let i := (source_tokens.filter (fun t => target_tokens.contains t)).length
            let u := ((source_tokens ++ target_tokens).dedup).length
            if u > 0 then (i : ℚ) / (u : ℚ) else 0
          else 0
        min 1 (max 0 (0.6 * lev_similarity + 0.4 * token_overlap))

end FieldMatcherML

/-! ## Persistence (save_model / load_model) -/

/-- The pickled model_data dict: a field is `none` when the corresponding
key is absent from the artifact. -/
structure ModelArtifact where
  W1 : Option (List (List ℝ))
  b1 : Option (List ℝ)
  W2 : Option (List (List ℝ))
  b2 : Option (List ℝ)
  W3 : Option (List (List ℝ))
  b3 : Option (List ℝ)
  input_dim : Option ℕ
  embedding_dim : Option ℕ
  char_vocab : Option (List Char)
  trained : Option Bool

/-- Python dict lookup model_data[key]: a missing key raises KeyError,
which propagates to the caller. -/
def keyLookup (o : Option α) (key : String) : Except String α :=
  match o with
  | some a => Except.ok a
  | none => Except.error ("KeyError: " ++ key)

namespace NeuralFieldEmbedding

/-- Source: tensorflow_field_model.py, save_model: serialize every weight,
bias, both dims, the vocabulary and the trained flag. -/
noncomputable def save_model (net : NeuralFieldEmbedding) : ModelArtifact :=
  ⟨some net.W1, some net.b1, some net.W2, some net.b2, some net.W3, some net.b3,
    some net.input_dim, some net.embedding_dim, some net.char_vocab, some net.trained⟩

/-- Source: tensorflow_field_model.py, load_model: read the ten dict keys
in assignment order and install them; no validation of shapes against the
configuration is performed. -/
noncomputable def load_model (art : ModelArtifact) : Except String NeuralFieldEmbedding := do
  let w1 ← keyLookup art.W1 "W1"
  let hb1 ← keyLookup art.b1 "b1"
  let w2 ← keyLookup art.W2 "W2"
  let hb2 ← keyLookup art.b2 "b2"
  let w3 ← keyLookup art.W3 "W3"
  let hb3 ← keyLookup art.b3 "b3"
  let d ← keyLookup art.input_dim "input_dim"
  let e ← keyLookup art.embedding_dim "embedding_dim"
  let v ← keyLookup art.char_vocab "char_vocab"
  let t ← keyLookup art.trained "trained"
  return ⟨d, e, w1, hb1, w2, hb2, w3, hb3, v, t⟩

end NeuralFieldEmbedding

/-! ## Concrete fixtures used by witnesses and counterexamples -/

/-- All entries of a row are zero. -/
def isZeros (v : List ℝ) : Prop := ∀ x ∈ v, x = (0 : ℝ)

noncomputable section

/-- A small weight state (1-dimensional input and embedding, width-1 hidden
layers, such shapes are installed verbatim by load_model) mapping the
encodings of "a" and "b" to the opposite unit embeddings [1] and [-1]. -/
def tinyNet : NeuralFieldEmbedding :=
  ⟨1, 1, [[1]], [0], [[1]], [0], [[2]], [-1], build_char_vocab, false⟩

/-- A freshly constructed weight state: the __init__ shapes (100 x 128,
128 x 64, 64 x 32), all biases zero exactly as np.zeros initializes them,
weights at an arbitrary nonzero value. -/
def fullZeroBiasNet : NeuralFieldEmbedding :=
  ⟨100, 32,
    List.replicate 100 (List.replicate 128 1), List.replicate 128 0,
    List.replicate 128 (List.replicate 64 1), List.replicate 64 0,
    List.replicate 64 (List.replicate 32 1), List.replicate 32 0,
    build_char_vocab, false⟩

/-- An artifact with every key present but 1 x 1 matrices, while its
declared input_dim is 100 and embedding_dim 32: every shape mismatches the
declared configuration. -/
def shapeMismatchArtifact : ModelArtifact :=
  ⟨some [[0]], some [0], some [[0]], some [0], some [[0]], some [0],
    some 100, some 32, some build_char_vocab, some false⟩

/-- A matcher state as built by __init__ when no model file exists. -/
def freshMatcher : FieldMatcherML :=
  ⟨⟨100, 32, [], [], [], [], [], [], build_char_vocab, false⟩, false,
    demographic_variations_table⟩

end

lemma charHist_length (vocab cs : List Char) : (charHist vocab cs).length = vocab.length := by
  simp [charHist]

lemma bigramHist_length (vocab cs : List Char) :
    (bigramHist vocab cs).length = vocab.length := by
  simp [bigramHist]

lemma normalizeHist_length (h : List ℚ) : (normalizeHist h).length = h.length := by
  unfold normalizeHist
  split <;> simp

lemma padTruncate_length (D : ℕ) (l : List ℚ) : (padTruncate D l).length = D := by
  unfold padTruncate
  split
  · rename_i h
    simp only [List.length_append, List.length_replicate]
    omega
  · rename_i h
    simp only [List.length_take]
    omega

lemma encode_field_name_length (vocab : List Char) (D : ℕ) (s : String) :
    (encode_field_name vocab D s).length = D := by
  unfold encode_field_name
  exact padTruncate_length D _

lemma charHist_nil (vocab : List Char) :
    charHist vocab [] = List.replicate vocab.length 0 := by
  refine List.eq_replicate_iff.2 ⟨charHist_length vocab [], ?_⟩
  intro b hb
  unfold charHist at hb
  obtain ⟨i, _, hi⟩ := List.mem_map.1 hb
  simp [← hi]

lemma bigramHist_nil (vocab : List Char) :
    bigramHist vocab [] = List.replicate vocab.length 0 := by
  refine List.eq_replicate_iff.2 ⟨bigramHist_length vocab [], ?_⟩
  intro b hb
  unfold bigramHist at hb
  obtain ⟨i, _, hi⟩ := List.mem_map.1 hb
  simp [← hi]

lemma normalizeHist_replicate_zero (n : ℕ) :
    normalizeHist (List.replicate n (0 : ℚ)) = List.replicate n 0 := by
  unfold normalizeHist
  split
  · rename_i h
    simp at h
  · rfl

lemma padTruncate_replicate_zero (D n : ℕ) :
    padTruncate D (List.replicate n (0 : ℚ)) = List.replicate D 0 := by
  unfold padTruncate
  split
  · rename_i h
    rw [← List.replicate_add]
    congr 1
    simp only [List.length_replicate] at h ⊢
    omega
  · rename_i h
    rw [List.take_replicate]
    congr 1
    simp only [List.length_replicate] at h
    omega

lemma encode_field_name_empty (vocab : List Char) (D : ℕ) :
    encode_field_name vocab D "" = List.replicate D 0 := by
  unfold encode_field_name
  show padTruncate D
      (normalizeHist (charHist vocab ((pyLower "").data.take 50)) ++
        normalizeHist (bigramHist vocab ((pyLower "").data.take 50))) = _
  rw [show ((pyLower "").data.take 50) = ([] : List Char) from rfl]
  rw [charHist_nil, bigramHist_nil, normalizeHist_replicate_zero,
      ← List.replicate_add]
  exact padTruncate_replicate_zero D _

/-! ## Helper lemmas -/

lemma charHist_a :
    charHist build_char_vocab ['a'] = (1 : ℚ) :: List.replicate 39 0 := by decide

lemma charHist_b :
    charHist build_char_vocab ['b'] = (0 : ℚ) :: 1 :: List.replicate 38 0 := by decide

lemma bigramHist_single (c : Char) (vocab : List Char) :
    bigramHist vocab [c] = List.replicate vocab.length 0 := by
  refine List.eq_replicate_iff.2 ⟨bigramHist_length vocab [c], ?_⟩
  intro b hb
  unfold bigramHist at hb
  obtain ⟨i, _, hi⟩ := List.mem_map.1 hb
  simp [← hi]

lemma normalizeHist_sum_one {h : List ℚ} (hs : h.sum = 1) : normalizeHist h = h := by
  unfold normalizeHist
  rw [if_pos (by rw [hs]; norm_num), hs]
  simp

lemma encode_a : encode_field_name build_char_vocab 1 "a" = [1] := by
  unfold encode_field_name
  show padTruncate 1
      (normalizeHist (charHist build_char_vocab ((pyLower "a").data.take 50)) ++
        normalizeHist (bigramHist build_char_vocab ((pyLower "a").data.take 50))) = _
  rw [show ((pyLower "a").data.take 50) = ['a'] from rfl]
  rw [charHist_a, normalizeHist_sum_one (by simp),
      bigramHist_single, normalizeHist_replicate_zero]
  rfl

lemma encode_b : encode_field_name build_char_vocab 1 "b" = [0] := by
  unfold encode_field_name
  show padTruncate 1
      (normalizeHist (charHist build_char_vocab ((pyLower "b").data.take 50)) ++
        normalizeHist (bigramHist build_char_vocab ((pyLower "b").data.take 50))) = _
  rw [show ((pyLower "b").data.take 50) = ['b'] from rfl]
  rw [charHist_b, normalizeHist_sum_one (by simp),
      bigramHist_single, normalizeHist_replicate_zero]
  rfl

/-! ## C9 -/

/-- C9: encode is a total, deterministic, pure function (it is a Lean
function of its arguments alone): for every vocabulary, input_dim and
input string, including the empty string and strings of unsupported
characters, it returns a vector of length exactly input_dim; the empty
string yields the all-zero vector. -/
theorem encode_total_fixed_length (vocab : List Char) (input_dim : ℕ) (s : String) :
    (encode_field_name vocab input_dim s).length = input_dim ∧
    encode_field_name vocab input_dim "" = List.replicate input_dim 0 :=
  ⟨encode_field_name_length vocab input_dim s, encode_field_name_empty vocab input_dim⟩

/-! ## C2 -/

/-- C2 counterexample: the character vocabulary string
'abcdefghijklmnopqrstuvwxyz0123456789_-. ' contains 40 symbols, not 41 as
claimed. -/
theorem char_vocab_not_41 :
    build_char_vocab.length = 40 ∧ ¬ build_char_vocab.length = 41 := by decide

/-- C2 (amended): the character vocabulary is an ordered, fixed mapping
from each of 40 symbols (a-z, 0-9, underscore, hyphen, period, space) to a
distinct index in 0..39, so each of encode's two histograms has length
V = 40 and their concatenation has 2V = 80 values before
padding/truncation to input_dim. -/
theorem char_vocab_forty (s : String) :
    build_char_vocab.length = 40 ∧
    build_char_vocab.Nodup ∧
    (∀ c ∈ build_char_vocab, build_char_vocab.indexOf c < 40) ∧
    (charHist build_char_vocab ((pyLower s).data.take 50)).length = 40 ∧
    (bigramHist build_char_vocab ((pyLower s).data.take 50)).length = 40 ∧
    (charHist build_char_vocab ((pyLower s).data.take 50) ++
      bigramHist build_char_vocab ((pyLower s).data.take 50)).length = 80 := by
  refine ⟨by decide, by decide, by decide, ?_, ?_, ?_⟩
  · rw [charHist_length]
    decide
  · rw [bigramHist_length]
    decide
  · rw [List.length_append, charHist_length, bigramHist_length]
    decide

/-! ## C10 -/

/-- C10: the scorer's blended similarity is independent of the neural
network: two matcher states with arbitrarily different network weights and
model_loaded flags (but the same lookup table, which __init__ always sets
to the same literal) produce equal scores for every pair of strings — the
score depends only on the fast path, the lookup table, the acronym check,
Levenshtein distance and token overlap. -/
theorem matcher_independent_of_network
    (net1 net2 : NeuralFieldEmbedding) (l1 l2 : Bool)
    (tab : List (String × List String)) (a b : String) :
    FieldMatcherML.calculate_similarity ⟨net1, l1, tab⟩ a b =
      FieldMatcherML.calculate_similarity ⟨net2, l2, tab⟩ a b := rfl

/-! ## C5 -/

/-- C5: if two strings are equal under case-insensitive comparison
(in particular any string with itself), the scorer returns 1.0 from the
fast path. -/
theorem fast_path_one (matcher : FieldMatcherML) (s t : String)
    (h : pyLower s = pyLower t) : matcher.calculate_similarity s t = 1 := by
  unfold FieldMatcherML.calculate_similarity
  rw [if_pos h]

/-- C5 witness: "firstName" and "FIRSTNAME" agree case-insensitively and
score 1.0. -/
theorem fast_path_one_witness :
    pyLower "firstName" = pyLower "FIRSTNAME" ∧
    freshMatcher.calculate_similarity "firstName" "FIRSTNAME" = 1 :=
  ⟨by decide, fast_path_one freshMatcher "firstName" "FIRSTNAME" (by decide)⟩

/-! ## C3 -/

/-- C3 counterexample: an artifact whose matrices are all 1 x 1 while its
declared input_dim is 100 and embedding_dim 32 — every shape mismatches
the declared configuration — is loaded successfully; load_model performs
no shape validation and raises no error. -/
theorem load_model_accepts_mismatched_shapes :
    (NeuralFieldEmbedding.load_model shapeMismatchArtifact).isOk = true ∧
    shapeMismatchArtifact.input_dim = some 100 ∧
    shapeMismatchArtifact.W1.map List.length = some 1 :=
  ⟨rfl, rfl, rfl⟩

/-- C3 (amended): load deserializes the artifact and installs all ten
fields; it fails — with a propagated key-lookup error, the only error it
can raise — exactly when a required field is missing, and it performs no
validation of matrix shapes against the declared configuration (success is
independent of the shapes of the stored matrices). -/
theorem load_model_fails_iff_missing_key (art : ModelArtifact) :
    (NeuralFieldEmbedding.load_model art).isOk =
      (art.W1.isSome && art.b1.isSome && art.W2.isSome && art.b2.isSome &&
        art.W3.isSome && art.b3.isSome && art.input_dim.isSome &&
        art.embedding_dim.isSome && art.char_vocab.isSome && art.trained.isSome) := by
  obtain ⟨w1, hb1, w2, hb2, w3, hb3, d, e, v, t⟩ := art
  cases w1 <;> cases hb1 <;> cases w2 <;> cases hb2 <;> cases w3 <;> cases hb3 <;>
    cases d <;> cases e <;> cases v <;> cases t <;> rfl

/-! ## C8 -/

/-- C8: save followed by load into a fresh network restores the identical
weights, biases, config, vocabulary and trained flag, and therefore
reproduces a numerically identical similarity score for every probe
pair. -/
theorem save_load_round_trip (net : NeuralFieldEmbedding) :
    NeuralFieldEmbedding.load_model net.save_model = Except.ok net ∧
    ∀ f1 f2 : String,
      (NeuralFieldEmbedding.load_model net.save_model).map
          (fun n => n.calculate_similarity f1 f2) =
        Except.ok (net.calculate_similarity f1 f2) := by
  obtain ⟨d, e, w1, hb1, w2, hb2, w3, hb3, v, t⟩ := net
  exact ⟨rfl, fun f1 f2 => rfl⟩

/-! ## C4 -/

lemma sumSq_nonneg (v : List ℝ) : 0 ≤ sumSq v := by
  unfold sumSq
  apply List.sum_nonneg
  intro x hx
  obtain ⟨y, _, rfl⟩ := List.mem_map.1 hx
  positivity

lemma norm2_nonneg (v : List ℝ) : 0 ≤ norm2 v := Real.sqrt_nonneg _

lemma sumSq_cons (x : ℝ) (v : List ℝ) : sumSq (x :: v) = x ^ 2 + sumSq v := by
  simp [sumSq]

lemma norm2_cons (x : ℝ) (v : List ℝ) :
    norm2 (x :: v) = Real.sqrt (x ^ 2 + sumSq v) := by
  rw [norm2, sumSq_cons]

lemma abs_mul_add_sqrt_le (x y A B : ℝ) (hA : 0 ≤ A) (hB : 0 ≤ B) :
    |x| * |y| + Real.sqrt A * Real.sqrt B ≤
      Real.sqrt (x ^ 2 + A) * Real.sqrt (y ^ 2 + B) := by
  rw [show Real.sqrt (x ^ 2 + A) * Real.sqrt (y ^ 2 + B) =
      Real.sqrt ((x ^ 2 + A) * (y ^ 2 + B)) from
    (Real.sqrt_mul (by positivity) _).symm]
  apply Real.le_sqrt_of_sq_le
  have hsA := Real.sq_sqrt hA
  have hsB := Real.sq_sqrt hB
  have h2 := two_mul_le_add_sq (|x| * Real.sqrt B) (|y| * Real.sqrt A)
  nlinarith [sq_abs x, sq_abs y, Real.sqrt_nonneg A, Real.sqrt_nonneg B,
    abs_nonneg x, abs_nonneg y]

/-- Cauchy-Schwarz for the list dot product (with numpy-style truncation
to the shorter row). -/
lemma abs_dotL_le (a b : List ℝ) : |dotL a b| ≤ norm2 a * norm2 b := by
  induction a generalizing b with
  | nil =>
    simp only [dotL, List.zipWith_nil_left, List.sum_nil, abs_zero]
    exact mul_nonneg (norm2_nonneg _) (norm2_nonneg _)
  | cons x a ih =>
    cases b with
    | nil =>
      simp only [dotL, List.zipWith_nil_right, List.sum_nil, abs_zero]
      exact mul_nonneg (norm2_nonneg _) (norm2_nonneg _)
    | cons y b =>
      have h1 : |dotL (x :: a) (y :: b)| ≤ |x| * |y| + |dotL a b| := by
        simp only [dotL, List.zipWith_cons_cons, List.sum_cons]
        calc |x * y + (List.zipWith (fun u v => u * v) a b).sum|
            ≤ |x * y| + |(List.zipWith (fun u v => u * v) a b).sum| := abs_add _ _
          _ = |x| * |y| + |(List.zipWith (fun u v => u * v) a b).sum| := by rw [abs_mul]
      have h3 : |x| * |y| + norm2 a * norm2 b ≤ norm2 (x :: a) * norm2 (y :: b) := by
        rw [norm2_cons, norm2_cons]
        exact abs_mul_add_sqrt_le x y (sumSq a) (sumSq b) (sumSq_nonneg a) (sumSq_nonneg b)
      have h2 := ih b
      calc |dotL (x :: a) (y :: b)| ≤ |x| * |y| + |dotL a b| := h1
        _ ≤ |x| * |y| + norm2 a * norm2 b := by linarith
        _ ≤ norm2 (x :: a) * norm2 (y :: b) := h3

lemma normEps_pos : (0 : ℝ) < normEps := by
  rw [normEps]
  norm_num

lemma cosine_score_bounds (d n1 n2 : ℝ) (hd : |d| ≤ n1 * n2)
    (h1 : 0 ≤ n1) (h2 : 0 ≤ n2) :
    0 ≤ (d / (n1 * n2 + normEps) + 1) / 2 ∧
      (d / (n1 * n2 + normEps) + 1) / 2 ≤ 1 := by
  have habs := abs_le.1 hd
  have hden : 0 < n1 * n2 + normEps :=
    add_pos_of_nonneg_of_pos (mul_nonneg h1 h2) normEps_pos
  have hle : d / (n1 * n2 + normEps) ≤ 1 := by
    rw [div_le_one hden]
    linarith [habs.2, normEps_pos]
  have hge : -1 ≤ d / (n1 * n2 + normEps) := by
    rw [le_div_iff₀ hden]
    linarith [habs.1, normEps_pos]
  constructor <;> linarith

/-- C4: both similarity scorers return values in the closed interval
[0, 1] for every pair of input strings: the lexical blend is clamped by
min/max (with the lookup-table, acronym and fast-path branches returning
constants in range), and the network's (cos + 1) / 2 rescaling is bounded
because Cauchy-Schwarz keeps the cosine in [-1, 1]. -/
theorem similarity_scores_bounded :
    (∀ (m : FieldMatcherML) (a b : String),
        0 ≤ m.calculate_similarity a b ∧ m.calculate_similarity a b ≤ 1) ∧
    (∀ (net : NeuralFieldEmbedding) (a b : String),
        0 ≤ net.calculate_similarity a b ∧ net.calculate_similarity a b ≤ 1) := by
  constructor
  · intro m a b
    unfold FieldMatcherML.calculate_similarity
    dsimp only
    split
    · norm_num
    · split
      · norm_num
      · split <;> split <;> norm_num
  · intro net a b
    exact cosine_score_bounds (dotL (net.get_embedding a) (net.get_embedding b))
      (norm2 (net.get_embedding a)) (norm2 (net.get_embedding b))
      (abs_dotL_le _ _) (norm2_nonneg _) (norm2_nonneg _)

/-! ## C1 -/

lemma sumSq_map_div (v : List ℝ) (c : ℝ) :
    sumSq (v.map (fun t => t / c)) = sumSq v / c ^ 2 := by
  induction v with
  | nil => simp [sumSq]
  | cons x v ih =>
    rw [List.map_cons, sumSq_cons, sumSq_cons, ih, div_pow, add_div]

lemma norm2_map_div (v : List ℝ) (c : ℝ) (hc : 0 ≤ c) :
    norm2 (v.map (fun t => t / c)) = norm2 v / c := by
  rw [norm2, sumSq_map_div, Real.sqrt_div (sumSq_nonneg v), Real.sqrt_sq hc, norm2]

/-- C1 (amended): whenever the pre-normalization output Z3 has norm at
least the 1e-8 epsilon floor — in particular whenever Z3 is not
essentially zero — the embedding produced by forward over encode, as
exposed by get_embedding, has L2 norm exactly 1.  (Without that proviso
the claim fails: see the counterexample, a freshly initialized zero-bias
network on an input that encodes to the zero vector.) -/
theorem embedding_unit_norm (net : NeuralFieldEmbedding) (s : String)
    (h : normEps ≤ norm2 (net.z3_of s)) :
    norm2 (net.get_embedding s) = 1 := by
  have hpos : 0 < norm2 (net.z3_of s) := lt_of_lt_of_le normEps_pos h
  have hemb : net.get_embedding s =
      (net.z3_of s).map (fun z => z / max (norm2 (net.z3_of s)) normEps) := rfl
  rw [hemb, max_eq_left h, norm2_map_div _ _ (le_of_lt hpos), div_self (ne_of_gt hpos)]

lemma norm2_single (x : ℝ) : norm2 [x] = |x| := by
  rw [norm2, sumSq_cons]
  simp [sumSq, Real.sqrt_sq_eq_abs]

lemma tiny_encodeR_a : tinyNet.encodeR "a" = [(1 : ℝ)] := by
  unfold NeuralFieldEmbedding.encodeR
  rw [show tinyNet.char_vocab = build_char_vocab from rfl,
      show tinyNet.input_dim = 1 from rfl, encode_a]
  norm_num

lemma tiny_encodeR_b : tinyNet.encodeR "b" = [(0 : ℝ)] := by
  unfold NeuralFieldEmbedding.encodeR
  rw [show tinyNet.char_vocab = build_char_vocab from rfl,
      show tinyNet.input_dim = 1 from rfl, encode_b]
  norm_num

lemma matVecMul_single (x w : ℝ) : matVecMul [x] [[w]] = [x * w] := by
  unfold matVecMul
  rw [show ((([[w]] : List (List ℝ)).headD []).length) = 1 from rfl,
      show List.range 1 = [0] from rfl]
  simp

lemma tiny_fwd_a :
    tinyNet.forward (tinyNet.encodeR "a") =
      ([1], ⟨[1], [1], [1], [1], [1], [1], [1]⟩) := by
  rw [tiny_encodeR_a]
  unfold NeuralFieldEmbedding.forward
  dsimp only
  rw [show tinyNet.W1 = [[(1 : ℝ)]] from rfl, show tinyNet.b1 = [(0 : ℝ)] from rfl,
      show tinyNet.W2 = [[(1 : ℝ)]] from rfl, show tinyNet.b2 = [(0 : ℝ)] from rfl,
      show tinyNet.W3 = [[(2 : ℝ)]] from rfl, show tinyNet.b3 = [(-1 : ℝ)] from rfl]
  rw [matVecMul_single]
  rw [show vecAdd [(1 : ℝ) * 1] [(0 : ℝ)] = [1] by norm_num [vecAdd]]
  rw [show reluVec [(1 : ℝ)] = [1] by norm_num [reluVec]]
  rw [matVecMul_single]
  rw [show vecAdd [(1 : ℝ) * 1] [(0 : ℝ)] = [1] by norm_num [vecAdd]]
  rw [show reluVec [(1 : ℝ)] = [1] by norm_num [reluVec]]
  rw [matVecMul_single]
  rw [show vecAdd [(1 : ℝ) * 2] [(-1 : ℝ)] = [1] by norm_num [vecAdd]]
  rw [show norm2 [(1 : ℝ)] = 1 by rw [norm2_single]; simp]
  rw [show max (1 : ℝ) normEps = 1 from max_eq_left (by rw [normEps]; norm_num)]
  simp

lemma tiny_fwd_b :
    tinyNet.forward (tinyNet.encodeR "b") =
      ([-1], ⟨[0], [0], [0], [0], [0], [-1], [-1]⟩) := by
  rw [tiny_encodeR_b]
  unfold NeuralFieldEmbedding.forward
  dsimp only
  rw [show tinyNet.W1 = [[(1 : ℝ)]] from rfl, show tinyNet.b1 = [(0 : ℝ)] from rfl,
      show tinyNet.W2 = [[(1 : ℝ)]] from rfl, show tinyNet.b2 = [(0 : ℝ)] from rfl,
      show tinyNet.W3 = [[(2 : ℝ)]] from rfl, show tinyNet.b3 = [(-1 : ℝ)] from rfl]
  rw [matVecMul_single]
  rw [show vecAdd [(0 : ℝ) * 1] [(0 : ℝ)] = [0] by norm_num [vecAdd]]
  rw [show reluVec [(0 : ℝ)] = [0] by norm_num [reluVec]]
  rw [matVecMul_single]
  rw [show vecAdd [(0 : ℝ) * 1] [(0 : ℝ)] = [0] by norm_num [vecAdd]]
  rw [show reluVec [(0 : ℝ)] = [0] by norm_num [reluVec]]
  rw [matVecMul_single]
  rw [show vecAdd [(0 : ℝ) * 2] [(-1 : ℝ)] = [-1] by norm_num [vecAdd]]
  rw [show norm2 [(-1 : ℝ)] = 1 by rw [norm2_single]; simp]
  rw [show max (1 : ℝ) normEps = 1 from max_eq_left (by rw [normEps]; norm_num)]
  simp

/-- C1 witness: on the small concrete weight state, Z3 of "a" is [1] with
norm 1 at least the epsilon floor, and the embedding has unit norm. -/
theorem embedding_unit_norm_witness :
    normEps ≤ norm2 (tinyNet.z3_of "a") ∧ norm2 (tinyNet.get_embedding "a") = 1 := by
  have hz : tinyNet.z3_of "a" = [1] := by
    rw [NeuralFieldEmbedding.z3_of, tiny_fwd_a]
  have h : normEps ≤ norm2 (tinyNet.z3_of "a") := by
    rw [hz, norm2_single]
    rw [normEps]
    norm_num
  exact ⟨h, embedding_unit_norm tinyNet "a" h⟩

lemma zipWith_zero_mul_sum (j : ℕ) (W : List (List ℝ)) (n : ℕ) :
    (List.zipWith (fun xi row => xi * row.getD j 0) (List.replicate n (0 : ℝ)) W).sum = 0 := by
  induction W generalizing n with
  | nil => simp
  | cons r W ih =>
    cases n with
    | zero => simp
    | succ m =>
      rw [List.replicate_succ, List.zipWith_cons_cons, List.sum_cons, zero_mul, zero_add]
      exact ih m

lemma matVecMul_zeros (n : ℕ) (W : List (List ℝ)) :
    matVecMul (List.replicate n 0) W = List.replicate (W.headD []).length 0 := by
  unfold matVecMul
  rw [List.eq_replicate_iff]
  constructor
  · simp
  · intro b hb
    obtain ⟨j, _, hj⟩ := List.mem_map.1 hb
    rw [← hj, zipWith_zero_mul_sum]

lemma vecAdd_zeros (n m : ℕ) :
    vecAdd (List.replicate n (0 : ℝ)) (List.replicate m 0) = List.replicate (min n m) 0 := by
  unfold vecAdd
  induction n generalizing m with
  | zero => simp
  | succ k ih =>
    cases m with
    | zero => simp
    | succ l =>
      simp only [List.replicate_succ, List.zipWith_cons_cons, add_zero]
      rw [ih l, Nat.succ_min_succ, List.replicate_succ]

lemma reluVec_zeros (n : ℕ) :
    reluVec (List.replicate n (0 : ℝ)) = List.replicate n 0 := by
  simp [reluVec, List.map_replicate]

lemma sumSq_replicate_zero (n : ℕ) : sumSq (List.replicate n (0 : ℝ)) = 0 := by
  simp [sumSq, List.map_replicate]

lemma norm2_replicate_zero (n : ℕ) : norm2 (List.replicate n (0 : ℝ)) = 0 := by
  rw [norm2, sumSq_replicate_zero, Real.sqrt_zero]

lemma fullZeroBiasNet_embedding_empty :
    fullZeroBiasNet.get_embedding "" = List.replicate 32 0 := by
  have hX : fullZeroBiasNet.encodeR "" = List.replicate 100 (0 : ℝ) := by
    unfold NeuralFieldEmbedding.encodeR
    rw [show fullZeroBiasNet.char_vocab = build_char_vocab from rfl,
        show fullZeroBiasNet.input_dim = 100 from rfl,
        encode_field_name_empty, List.map_replicate, Rat.cast_zero]
  unfold NeuralFieldEmbedding.get_embedding NeuralFieldEmbedding.forward
  dsimp only
  rw [hX,
      show fullZeroBiasNet.W1 = List.replicate 100 (List.replicate 128 (1 : ℝ)) from rfl,
      show fullZeroBiasNet.b1 = List.replicate 128 (0 : ℝ) from rfl,
      show fullZeroBiasNet.W2 = List.replicate 128 (List.replicate 64 (1 : ℝ)) from rfl,
      show fullZeroBiasNet.b2 = List.replicate 64 (0 : ℝ) from rfl,
      show fullZeroBiasNet.W3 = List.replicate 64 (List.replicate 32 (1 : ℝ)) from rfl,
      show fullZeroBiasNet.b3 = List.replicate 32 (0 : ℝ) from rfl]
  rw [matVecMul_zeros,
      show ((List.replicate 100 (List.replicate 128 (1 : ℝ))).headD []).length = 128 by simp,
      vecAdd_zeros, show min 128 128 = 128 from rfl, reluVec_zeros]
  rw [matVecMul_zeros,
      show ((List.replicate 128 (List.replicate 64 (1 : ℝ))).headD []).length = 64 by simp,
      vecAdd_zeros, show min 64 64 = 64 from rfl, reluVec_zeros]
  rw [matVecMul_zeros,
      show ((List.replicate 64 (List.replicate 32 (1 : ℝ))).headD []).length = 32 by simp,
      vecAdd_zeros, show min 32 32 = 32 from rfl]
  rw [List.map_replicate]
  simp

/-- C1 counterexample: on a freshly initialized network (zero biases, as
np.zeros sets them in __init__) the empty string — whose encoding is the
all-zero vector — produces the all-zero embedding, whose L2 norm 0 is not
within 1e-6 of 1.  The claim as stated (unit norm for every reachable
weight state and every input) therefore fails. -/
theorem embedding_norm_not_one_counterexample :
    norm2 (fullZeroBiasNet.get_embedding "") = 0 ∧
    ¬ |norm2 (fullZeroBiasNet.get_embedding "") - 1| ≤ 1 / 10 ^ 6 := by
  have h0 : norm2 (fullZeroBiasNet.get_embedding "") = 0 := by
    rw [fullZeroBiasNet_embedding_empty, norm2_replicate_zero]
  refine ⟨h0, ?_⟩
  rw [h0]
  norm_num

/-! ## C6 -/

/-- C6: during training, a dissimilar pair whose embedding distance is at
least the margin (1.0) is skipped: the step leaves every weight matrix and
bias vector unchanged (no backward update is applied) and adds nothing to
the epoch's loss accumulator. -/
theorem dissim_pair_skipped (lr : ℝ) (st : NeuralFieldEmbedding × ℝ)
    (p : String × String)
    (h : 1 ≤ norm2 (vecSub (st.1.get_embedding p.1) (st.1.get_embedding p.2))) :
    dissimStep lr st p = st := by
  unfold NeuralFieldEmbedding.get_embedding at h
  unfold dissimStep
  dsimp only
  rw [if_neg (not_lt.2 h)]

lemma tiny_distance_ab :
    norm2 (vecSub (tinyNet.get_embedding "a") (tinyNet.get_embedding "b")) = 2 := by
  unfold NeuralFieldEmbedding.get_embedding
  rw [tiny_fwd_a, tiny_fwd_b]
  rw [show vecSub [(1 : ℝ)] [(-1 : ℝ)] = [2] by norm_num [vecSub]]
  rw [norm2_single]
  norm_num

/-- C6 witness: on the small concrete weight state the embeddings of "a"
and "b" are at distance 2 ≥ margin, and the dissimilar-pair step returns
the state unchanged. -/
theorem dissim_pair_skipped_witness :
    1 ≤ norm2 (vecSub (tinyNet.get_embedding "a") (tinyNet.get_embedding "b")) ∧
    dissimStep (1 / 100) (tinyNet, 0) ("a", "b") = (tinyNet, 0) := by
  have h : 1 ≤ norm2 (vecSub (tinyNet.get_embedding "a") (tinyNet.get_embedding "b")) := by
    rw [tiny_distance_ab]
    norm_num
  exact ⟨h, dissim_pair_skipped (1 / 100) (tinyNet, 0) ("a", "b") h⟩

/-! ## C7 -/

/-- C7: in every epoch the pairs are processed in fixed order — the fold
over all similar pairs runs first and the fold over all dissimilar pairs
runs second, both threading the same weight state — and within one pair
the step equals backward(cache1, grad1, lr) followed by backward(cache2,
grad2, lr) applied to the network returned by the first call (both caches
and gradients coming from forward passes over the pre-update weights), so
the second backward call operates on weights already mutated by the
first. -/
theorem train_epoch_order_and_sequencing (net : NeuralFieldEmbedding)
    (similar_pairs dissimilar_pairs : List (String × String))
    (epochs : ℕ) (lr : ℝ) :
    net.train_on_pairs similar_pairs dissimilar_pairs epochs lr =
      { (List.range epochs).foldl
          (fun n _ =>
            (List.foldl (dissimStep lr)
              (List.foldl (simStep lr) (n, 0) similar_pairs) dissimilar_pairs).1)
          net with
        trained := true } ∧
    (∀ (st : NeuralFieldEmbedding × ℝ) (p : String × String),
      simStep lr st p =
        (let ec1 := st.1.forward (st.1.encodeR p.1)
         let ec2 := st.1.forward (st.1.encodeR p.2)
         let diff := vecSub ec1.1 ec2.1
         let firstUpdated := st.1.backward ec1.2 (diff.map (fun x => 2 * x)) lr
         (firstUpdated.backward ec2.2 (diff.map (fun x => -2 * x)) lr,
          st.2 + sumSq diff))) ∧
    (∀ (st : NeuralFieldEmbedding × ℝ) (p : String × String),
      dissimStep lr st p =
        (let ec1 := st.1.forward (st.1.encodeR p.1)
         let ec2 := st.1.forward (st.1.encodeR p.2)
         let diff := vecSub ec1.1 ec2.1
         let distance := norm2 diff
         if distance < 1 then
           let grad_factor := -2 * (1 - distance) / (distance + normEps)
           let firstUpdated := st.1.backward ec1.2 (diff.map (fun x => grad_factor * x)) lr
           (firstUpdated.backward ec2.2 (diff.map (fun x => -grad_factor * x)) lr,
            st.2 + (1 - distance) ^ 2)
         else (st.1, st.2))) :=
  ⟨rfl, fun _ _ => rfl, fun _ _ => rfl⟩
